import Mathlib

/-!
Verification of the item-reconciliation and OCR-pool subsystem of the Supply
repository, as a shallow embedding in Lean 4.

The embedding follows `src/lib/utils.py` (functions `to_str`,
`normalize_article`, `normalize_unit`, `parse_quantity`, `compare_items`),
`src/parsers/ocr_pool.py` (classes `ImagePreprocessor`, `OCRWorker`, `OCRPool`
and the decorator `retry_with_backoff` from `src/core/retry.py`), and the
default configuration values of `src/config.py`.

Modelling conventions:
* Python scalar values reaching the reconciliation code (JSON fields) are
  modelled by `PyVal`: `None`, strings, and integers.  Python `str()` of these
  values is total, matching `to_str`'s behaviour.
* Python `float` parsing is modelled over `ℚ`: the model accepts the
  sign/digits/decimal-point/exponent forms (with surrounding whitespace, which
  Python's `float` constructor strips) and treats everything else, including
  the special literals `inf`/`nan` and digit-group underscores, as unparsable.
  These are the forms reachable from the data handled by the repository.
* Thread scheduling in `OCRPool.process_images` is made explicit: the
  completion order of the submitted futures (Python's `as_completed`) is an
  explicit argument, quantified over all permutations of the submission order
  in the theorems, and each image's per-attempt OCR outcomes are given as a
  list (`some texts` = the recognition call returns, `none` = it raises).
-/

/-- A Python value as it reaches the reconciliation code from parsed JSON:
`None`, a string, or an integer. -/
inductive PyVal where
  | none : PyVal
  | str : String → PyVal
  | int : Int → PyVal
deriving DecidableEq

/-- `to_str` from `src/lib/utils.py`: `'' if value is None else str(value)`. -/
def to_str : PyVal → String
  | .none => ""
  | .str s => s
  | .int n => toString n

/-- Python truthiness of a `PyVal` (`None`, `''` and `0` are falsy). -/
def isTruthy : PyVal → Bool
  | .none => false
  | .str s => s ≠ ""
  | .int n => n ≠ 0

/-- Python `value or ''` as used in `compare_items`: a falsy value is
replaced by the empty string. -/
def pyOrEmpty (v : PyVal) : PyVal := if isTruthy v then v else .str ""

/-- Characters stripped by Python's `str.strip()` that occur in this data:
space, tab, newline, carriage return, vertical tab, form feed, and the
non-breaking space. -/
def isPySpace (c : Char) : Bool :=
  c == ' ' || c == '\t' || c == '\n' || c == '\r' ||
  c == '\x0b' || c == '\x0c' || c == '\u00A0'

/-- Strip leading and trailing whitespace from a character list. -/
def stripChars (cs : List Char) : List Char :=
  ((cs.dropWhile isPySpace).reverse.dropWhile isPySpace).reverse

/-- Python `str.strip()`. -/
def pyStrip (s : String) : String := String.mk (stripChars s.data)

/-- Python `str.lower()` (ASCII model; the claims do not depend on
non-ASCII case folding). -/
def pyLower (s : String) : String := String.mk (s.data.map Char.toLower)

/-- `normalize_article` from `src/lib/utils.py`: stringify, strip, lowercase. -/
def normalize_article (v : PyVal) : String := pyLower (pyStrip (to_str v))

/-- `normalize_unit` from `src/lib/utils.py`: stringify and strip. -/
def normalize_unit (v : PyVal) : String := pyStrip (to_str v)

/-- Numeric value of a digit list (most significant first). -/
def digitsVal (cs : List Char) : Nat :=
  cs.foldl (fun a c => a * 10 + (c.toNat - '0'.toNat)) 0

/-- Python's `float()` constructor on a character list, modelled over `ℚ`:
strips surrounding whitespace, then accepts `[+-]? digits [. digits] [(e|E)
[+-]? digits]` with at least one mantissa digit; anything else (including
`inf`/`nan`) is unparsable.  The accepted literal `±ip.fp × 10^e` is returned
as the exact fraction `± (ip·10^|fp| + fp) · 10^e / 10^|fp|`. -/
def parseFloatChars (cs : List Char) : Option ℚ :=
  let cs := stripChars cs
  let sgnRest : Int × List Char :=
    match cs with
    | '+' :: t => (1, t)
    | '-' :: t => (-1, t)
    | t => (1, t)
  let sgn := sgnRest.1
  let (ip, rest) := sgnRest.2.span Char.isDigit
  let fpRest : List Char × List Char :=
    match rest with
    | '.' :: t => t.span Char.isDigit
    | _ => ([], rest)
  let fp := fpRest.1
  let value : Int → Option ℚ := fun e =>
    some (mkRat
      (sgn * ((digitsVal ip * 10 ^ fp.length + digitsVal fp : Nat) : Int) * (10 : Int) ^ e.toNat)
      (10 ^ fp.length * 10 ^ (-e).toNat))
  if ip.isEmpty && fp.isEmpty then Option.none
  else
    match fpRest.2 with
    | [] => value 0
    | c :: t =>
      if c == 'e' || c == 'E' then
        let esgnRest : Int × List Char :=
          match t with
          | '+' :: u => (1, u)
          | '-' :: u => (-1, u)
          | u => (1, u)
        let (ed, rest3) := esgnRest.2.span Char.isDigit
        if ed.isEmpty || !rest3.isEmpty then Option.none
        else value (esgnRest.1 * (digitsVal ed : Int))
      else Option.none

/-- Python's `float()` on a string. -/
def pyFloat (s : String) : Option ℚ := parseFloatChars s.data

/-- `parse_quantity` from `src/lib/utils.py`: stringify, delete non-breaking
and ordinary spaces, turn commas into periods; `''`, `'+'`, `'-'` and
unparsable strings give `none`, otherwise the parsed number. -/
def parse_quantity (v : PyVal) : Option ℚ :=
  let s := String.mk
    (((to_str v).data.filter fun c => !(c == ' ' || c == '\u00A0')).map
      fun c => if c == ',' then '.' else c)
  if s = "" || s = "+" || s = "-" then Option.none else pyFloat s

/-- One item of a document's `items` collection.  A field of value `Option.none`
models a key that is absent from the item dictionary; `some v` models a
present key with (possibly null) value `v`. -/
structure Item where
  article : Option PyVal
  quantity : Option PyVal
  unit : Option PyVal
deriving DecidableEq

/-- A document passed to `compare_items`: `none` models a missing or null
`items` key (read through `app_json.get('items') or []`). -/
structure Doc where
  items : Option (List Item)
deriving DecidableEq

/-- `item.get('article', '')`: the article field with default `''`. -/
def Item.getArticle (it : Item) : PyVal := it.article.getD (.str "")

/-- `item.get('article')`: the article field with default `None`. -/
def Item.getArticleRaw (it : Item) : PyVal := it.article.getD .none

/-- `item.get('quantity')`. -/
def Item.getQuantity (it : Item) : PyVal := it.quantity.getD .none

/-- `item.get('unit')`. -/
def Item.getUnit (it : Item) : PyVal := it.unit.getD .none

/-- The normalized article key of an item: `normalize_article(item.get('article', ''))`. -/
def itemKey (it : Item) : String := normalize_article it.getArticle

/-- A per-document map value, as built by `compare_items`:
`{'article': to_str(item.get('article') or '').strip(), 'qty': item.get('quantity'),
'unit': item.get('unit')}`. -/
structure Entry where
  article : String
  qty : PyVal
  unit : PyVal
deriving DecidableEq

/-- The map value built from one item. -/
def mkEntry (it : Item) : Entry :=
  { article := pyStrip (to_str (pyOrEmpty it.getArticleRaw))
    qty := it.getQuantity
    unit := it.getUnit }

/-- Insertion into a Python dict modelled as an association list: an existing
key is overwritten in place, a new key is appended at the end. -/
def insertEntry : List (String × Entry) → String → Entry → List (String × Entry)
  | [], k, v => [(k, v)]
  | (k₀, v₀) :: t, k, v => if k₀ = k then (k, v) :: t else (k₀, v₀) :: insertEntry t k v

/-- Python dict lookup on the association list. -/
def lookupEntry : List (String × Entry) → String → Option Entry
  | [], _ => Option.none
  | (k₀, v) :: t, k => if k₀ = k then some v else lookupEntry t k

/-- The per-document map-building loop of `compare_items`, starting from an
accumulated map `m`: items whose normalized key is empty are skipped, the rest
inserted under their normalized key (later items overwrite earlier ones). -/
def buildMapFrom (m : List (String × Entry)) : List Item → List (String × Entry)
  | [] => m
  | it :: rest =>
    buildMapFrom (if itemKey it = "" then m else insertEntry m (itemKey it) (mkEntry it)) rest

/-- The per-document map of `compare_items`, built from the empty dict. -/
def buildMap (items : List Item) : List (String × Entry) := buildMapFrom [] items

/-- Keys of the association list, in dict insertion order. -/
def mapKeys (m : List (String × Entry)) : List String := m.map Prod.fst

/-- Lexicographic comparison of character lists by code point, as Python
compares strings. -/
def lexLe : List Char → List Char → Bool
  | [], _ => true
  | _ :: _, [] => false
  | a :: as, b :: bs => if a < b then true else if b < a then false else lexLe as bs

/-- Python string comparison `a <= b` (code-point lexicographic). -/
def keyLe (a b : String) : Bool := lexLe a.data b.data

/-- `sorted(set(app_map.keys()) | set(inv_map.keys()))`: the union of the two
key sets, sorted lexicographically. -/
def sortedKeys (ka kb : List String) : List String :=
  List.insertionSort (fun a b => keyLe a b = true) (ka ++ kb).dedup

/-- A row of the `matches` result list. -/
structure MatchRow where
  article : String
  app_qty : String
  app_unit : String
  inv_qty : String
  inv_unit : String
  same_qty : Bool
  same_unit : Bool
deriving DecidableEq

/-- A row of the `only_in_app` result list. -/
structure AppRow where
  article : String
  app_qty : String
  app_unit : String
deriving DecidableEq

/-- A row of the `only_in_inv` result list. -/
structure InvRow where
  article : String
  inv_qty : String
  inv_unit : String
deriving DecidableEq

/-- `to_str(entry['qty'] or '').strip()`: the displayed quantity string. -/
def qtyDisp (v : PyVal) : String := pyStrip (to_str (pyOrEmpty v))

/-- Python `or` on two strings (`app_item['article'] or inv_item['article']`). -/
def pyOrStr (a b : String) : String := if a = "" then b else a

/-- The epsilon `1e-9` of the quantity comparison. -/
def qtyEps : ℚ := mkRat 1 (10 ^ 9)

/-- `abs(x - y) < 1e-9` on exact rationals, computed by cross-multiplication
(the theorem `absDiffLtEps_iff` below proves it equal to the textbook form
`|x - y| < qtyEps`). -/
def absDiffLtEps (x y : ℚ) : Bool :=
  decide ((x.num * (y.den : Int) - y.num * (x.den : Int)).natAbs * 10 ^ 9 < x.den * y.den)

/-- The `same_qty` expression of `compare_items`: both quantities parse and
differ by less than `1e-9`, or the `or ''`-collapsed, stripped string forms
coincide. -/
def sameQty (a b : PyVal) : Bool :=
  (match parse_quantity a, parse_quantity b with
   | some x, some y => absDiffLtEps x y
   | _, _ => false)
  || (qtyDisp a == qtyDisp b)

/-- The `matches` row built from the two entries of a key present in both
documents. -/
def mkMatchRow (a b : Entry) : MatchRow :=
  { article := pyOrStr a.article b.article
    app_qty := qtyDisp a.qty
    app_unit := normalize_unit a.unit
    inv_qty := qtyDisp b.qty
    inv_unit := normalize_unit b.unit
    same_qty := sameQty a.qty b.qty
    same_unit := normalize_unit a.unit == normalize_unit b.unit }

/-- The `only_in_app` row built from an application-only entry. -/
def mkAppRow (a : Entry) : AppRow :=
  { article := a.article
    app_qty := qtyDisp a.qty
    app_unit := normalize_unit a.unit }

/-- The `only_in_inv` row built from an invoice-only entry. -/
def mkInvRow (b : Entry) : InvRow :=
  { article := b.article
    inv_qty := qtyDisp b.qty
    inv_unit := normalize_unit b.unit }

/-- The result dictionary of `compare_items`. -/
structure CompareResult where
  matches_ : List MatchRow
  only_in_app : List AppRow
  only_in_inv : List InvRow
deriving DecidableEq

/-- The per-document map of a `compare_items` argument:
`app_json.get('items') or []` fed through the map-building loop. -/
def docMap (d : Doc) : List (String × Entry) := buildMap (d.items.getD [])

/-- The key universe walked by `compare_items`: the sorted union of the two
maps' key sets. -/
def compareKeys (app inv : Doc) : List String :=
  sortedKeys (mapKeys (docMap app)) (mapKeys (docMap inv))

/-- `compare_items` from `src/lib/utils.py`: build the two per-document maps,
walk the sorted union of their key sets, and classify each key.  The Python
loop appends each key's row to exactly one of the three lists; this is
rendered as one `filterMap` over the sorted keys per list. -/
def compare_items (app inv : Doc) : CompareResult :=
  { matches_ := (compareKeys app inv).filterMap fun k =>
      match lookupEntry (docMap app) k, lookupEntry (docMap inv) k with
      | some a, some b => some (mkMatchRow a b)
      | _, _ => Option.none
    only_in_app := (compareKeys app inv).filterMap fun k =>
      match lookupEntry (docMap app) k, lookupEntry (docMap inv) k with
      | some a, Option.none => some (mkAppRow a)
      | _, _ => Option.none
    only_in_inv := (compareKeys app inv).filterMap fun k =>
      match lookupEntry (docMap app) k, lookupEntry (docMap inv) k with
      | Option.none, some b => some (mkInvRow b)
      | _, _ => Option.none }

/-- `retry_with_backoff` from `src/core/retry.py`, with the delays abstracted
away: given the maximum attempt count and the outcomes of the successive
calls (`some texts` = the call returns, `none` = it raises), return the first
success, or the last attempt's failure; a zero attempt budget falls through to
the final `raise` of the wrapper. -/
def retryExec : Nat → List (Option (List String)) → Option (List String)
  | 0, _ => Option.none
  | _ + 1, [] => Option.none
  | 1, r :: _ => r
  | n + 2, r :: rest =>
    match r with
    | some v => some v
    | Option.none => retryExec (n + 1) rest

/-- `OCRWorker.process_image` as seen from the pool: the recognition call is
wrapped in `retry_with_backoff(max_attempts=2, base_delay=1.0)`. -/
def workerProcess (attempts : List (Option (List String))) : Option (List String) :=
  retryExec 2 attempts

/-- The lifecycle-relevant state of an `OCRPool`: its configuration, whether
the executor is running (`self._executor is not None`), and the workers'
processed counters. -/
structure OCRPool where
  maxWorkers : Nat
  usePreprocessing : Bool
  executor : Bool
  workers : List Nat
deriving DecidableEq

/-- `OCRPool.__init__`: no executor, no workers. -/
def OCRPool.init (maxWorkers : Nat) (usePreprocessing : Bool) : OCRPool :=
  { maxWorkers := maxWorkers
    usePreprocessing := usePreprocessing
    executor := false
    workers := [] }

/-- `OCRPool.start`: a no-op on a running pool, otherwise creates the executor
and the fixed roster of workers. -/
def OCRPool.start (p : OCRPool) : OCRPool :=
  if p.executor then p
  else { p with executor := true, workers := List.replicate p.maxWorkers 0 }

/-- `OCRPool.shutdown`: a no-op on a stopped pool, otherwise drains the
executor and discards the workers. -/
def OCRPool.shutdown (p : OCRPool) : OCRPool :=
  if p.executor then { p with executor := false, workers := [] } else p

/-- The dictionary returned by `OCRPool.get_stats`: the stub `{"active":
False}` when the worker roster is empty, otherwise the full record. -/
inductive PoolStats where
  | stub
  | full (active : Bool) (maxWorkers workersCount totalProcessed : Nat)
      (usePreprocessing : Bool)
deriving DecidableEq

/-- `OCRPool.get_stats`. -/
def OCRPool.getStats (p : OCRPool) : PoolStats :=
  if p.workers = [] then .stub
  else .full p.executor p.maxWorkers p.workers.length (p.workers.foldl (· + ·) 0)
    p.usePreprocessing

/-- The `active` field of a stats dictionary. -/
def statsActive : PoolStats → Bool
  | .stub => false
  | .full active _ _ _ _ => active

/-- The error raised by `process_images` on a pool whose executor is not
running. -/
inductive PoolError where
  | notRunning
deriving DecidableEq

instance {e a : Type} [DecidableEq e] [DecidableEq a] : DecidableEq (Except e a)
  | .error x, .error y => decidable_of_iff (x = y) (by simp)
  | .error _, .ok _ => isFalse (by simp)
  | .ok _, .error _ => isFalse (by simp)
  | .ok x, .ok y => decidable_of_iff (x = y) (by simp)

/-- `OCRPool.process_images`.  Each image is represented by the outcome list
of its successive recognition attempts; `ord` is the completion order of the
submitted futures (indices into `images`), as delivered by `as_completed`.
The empty-input check precedes the executor check; each completed future's
texts extend the aggregate, a future that raises is logged and skipped. -/
def processImages (p : OCRPool) (images : List (List (Option (List String))))
    (ord : List Nat) : Except PoolError (List String) :=
  if images = [] then .ok []
  else if !p.executor then .error .notRunning
  else .ok (List.flatten (ord.filterMap fun j => (images.get? j).bind workerProcess))

/-- Boolean flag parsing used throughout `src/config.py`:
`str(value).strip() in tokens`. -/
def flagIn (value : String) (tokens : List String) : Bool :=
  tokens.contains (pyStrip value)

/-- `OCR_CONTRAST` under the default configuration (`float(_get("OCR_CONTRAST",
"1.0"))` with no override). -/
def OCR_CONTRAST_default : Option ℚ := pyFloat "1.0"

/-- `OCR_BRIGHTNESS` under the default configuration. -/
def OCR_BRIGHTNESS_default : Option ℚ := pyFloat "1.0"

/-- `OCR_SHARPNESS` under the default configuration. -/
def OCR_SHARPNESS_default : Option ℚ := pyFloat "1.0"

/-- `OCR_DENOISE` under the default configuration:
`str(_get("OCR_DENOISE", "0")).strip() in ("0", "false", "False")`. -/
def OCR_DENOISE_default : Bool := flagIn "0" ["0", "false", "False"]

/-- One transform stage applied to an image by the preprocessing pipeline. -/
inductive Transform where
  | resize
  | contrast (factor : ℚ)
  | brightness (factor : ℚ)
  | sharpness (factor : ℚ)
  | medianFilter (size : Nat)
deriving DecidableEq

/-- `ImagePreprocessor.enhance_image` as the list of enhancement stages it
applies: each multiplier is applied only when it differs from `1.0`. -/
def enhance_image (contrast brightness sharpness : ℚ) : List Transform :=
  (if contrast ≠ 1 then [Transform.contrast contrast] else [])
  ++ (if brightness ≠ 1 then [Transform.brightness brightness] else [])
  ++ (if sharpness ≠ 1 then [Transform.sharpness sharpness] else [])

/-- `ImagePreprocessor.apply_filters`: a median filter of size 3 when
`denoise` is set. -/
def apply_filters (denoise : Bool) : List Transform :=
  if denoise then [Transform.medianFilter 3] else []

/-- `ImagePreprocessor.preprocess_for_ocr` as the list of stages it applies:
resize-if-needed (whether the size bound is exceeded is abstracted into
`needsResize`), then the enhancements, then the filters. -/
def preprocess_for_ocr (needsResize : Bool) (contrast brightness sharpness : ℚ)
    (denoise : Bool) : List Transform :=
  (if needsResize then [Transform.resize] else [])
  ++ enhance_image contrast brightness sharpness
  ++ apply_filters denoise

/-- The preprocessing stages applied under the default configuration of
`src/config.py`. -/
def defaultPreprocessTrace (needsResize : Bool) : List Transform :=
  preprocess_for_ocr needsResize (OCR_CONTRAST_default.getD 0)
    (OCR_BRIGHTNESS_default.getD 0) (OCR_SHARPNESS_default.getD 0)
    OCR_DENOISE_default

/-- An item with every field made explicit: a missing field is replaced by the
explicit null that Python's `dict.get` defaults produce. -/
def normItem (it : Item) : Item :=
  ⟨some it.getArticleRaw, some it.getQuantity, some it.getUnit⟩

/-- The keys that `compare_items` classifies as present in both documents. -/
def matchKeys (app inv : Doc) : List String :=
  (compareKeys app inv).filter fun k =>
    (lookupEntry (docMap app) k).isSome && (lookupEntry (docMap inv) k).isSome

/-- The keys that `compare_items` classifies as application-only. -/
def onlyAppKeys (app inv : Doc) : List String :=
  (compareKeys app inv).filter fun k =>
    (lookupEntry (docMap app) k).isSome && !(lookupEntry (docMap inv) k).isSome

/-- The keys that `compare_items` classifies as invoice-only. -/
def onlyInvKeys (app inv : Doc) : List String :=
  (compareKeys app inv).filter fun k =>
    !(lookupEntry (docMap app) k).isSome && (lookupEntry (docMap inv) k).isSome

example : parse_quantity (.str "5,0") = some 5 := by decide
example : parse_quantity (.str " 1 234,5") = some (mkRat 12345 10) := by decide
example : parse_quantity (.str "5 шт") = Option.none := by decide
example : parse_quantity (.str "+") = Option.none := by decide
example : parse_quantity .none = Option.none := by decide
example : parse_quantity (.int 0) = some 0 := by decide
example : parse_quantity (.str "-2e1") = some (-20) := by decide
example : parse_quantity (.str "1.") = some 1 := by decide
example : pyFloat "\t5" = some 5 := by decide
example : pyFloat "." = Option.none := by decide

example :
    compare_items
      ⟨some [⟨some (.str "A-1"), some (.str "5"), some (.str "шт")⟩]⟩
      ⟨some [⟨some (.str "a-1"), some (.str "5,0"), some (.str "шт")⟩]⟩
      = ⟨[⟨"A-1", "5", "шт", "5,0", "шт", true, true⟩], [], []⟩ := by decide

example :
    compare_items
      ⟨some [⟨some (.str "B-2"), some (.str "5 шт"), Option.none⟩]⟩
      ⟨some [⟨some (.str "B-2"), some (.str "5 шт"), Option.none⟩]⟩
      = ⟨[⟨"B-2", "5 шт", "", "5 шт", "", true, true⟩], [], []⟩ := by decide

example :
    (compare_items
      ⟨some [⟨some (.str "C"), some (.str "10"), Option.none⟩]⟩
      ⟨some [⟨some (.str "C"), some (.str "10.5"), Option.none⟩]⟩).matches_.map
        MatchRow.same_qty = [false] := by decide

example :
    compare_items
      ⟨some [⟨some (.str "X"), Option.none, Option.none⟩,
             ⟨some (.str "Y"), Option.none, Option.none⟩]⟩
      ⟨some [⟨some (.str "Y"), Option.none, Option.none⟩,
             ⟨some (.str "Z"), Option.none, Option.none⟩]⟩
      = ⟨[⟨"Y", "", "", "", "", true, true⟩],
         [⟨"X", "", ""⟩], [⟨"Z", "", ""⟩]⟩ := by decide

example :
    compare_items ⟨some [⟨some (.str ""), some (.str "1"), Option.none⟩]⟩ ⟨Option.none⟩
      = ⟨[], [], []⟩ := by decide

example : OCR_DENOISE_default = true := by decide
example : OCR_CONTRAST_default = some 1 := by decide
example : defaultPreprocessTrace false = [Transform.medianFilter 3] := by decide
example : processImages (OCRPool.init 2 true) [] [0] = .ok [] := by decide
example :
    processImages ((OCRPool.init 2 true).start) [[some ["a"]], [Option.none, Option.none], [some ["c"]]]
      [1, 2, 0] = .ok ["c", "a"] := by decide

/-- The cross-multiplied comparison `absDiffLtEps` computes exactly
`|x - y| < 1e-9`. -/
theorem absDiffLtEps_iff (x y : ℚ) : absDiffLtEps x y = true ↔ |x - y| < qtyEps := by
  rw [absDiffLtEps, decide_eq_true_iff]
  have hdx : (0 : ℚ) < (x.den : ℚ) := by exact_mod_cast x.pos
  have hdy : (0 : ℚ) < (y.den : ℚ) := by exact_mod_cast y.pos
  have hE : (0 : ℚ) < ((10 : ℚ) ^ (9 : ℕ)) := by positivity
  have hq : qtyEps = 1 / (10 : ℚ) ^ (9 : ℕ) := by
    rw [qtyEps, Rat.mkRat_eq_div]
    norm_num
  have hxy : x - y = ((x.num * (y.den : Int) - y.num * (x.den : Int) : Int) : ℚ) /
      ((x.den * y.den : ℕ) : ℚ) := by
    rw [eq_div_iff (by positivity)]
    push_cast
    rw [← Rat.mul_den_eq_num x, ← Rat.mul_den_eq_num y]
    ring
  rw [hq, hxy, abs_div, abs_of_pos (by positivity : (0:ℚ) < ((x.den * y.den : ℕ) : ℚ))]
  rw [div_lt_div_iff₀ (by positivity) hE, one_mul, ← Int.cast_abs]
  constructor
  · intro h
    have h2 : (|x.num * (y.den : Int) - y.num * (x.den : Int)| * 10 ^ 9 : ℤ)
        < ((x.den * y.den : ℕ) : ℤ) := by
      rw [Int.abs_eq_natAbs]
      exact_mod_cast h
    exact_mod_cast h2
  · intro h
    have h2 : (|x.num * (y.den : Int) - y.num * (x.den : Int)| * 10 ^ 9 : ℤ)
        < ((x.den * y.den : ℕ) : ℤ) := by exact_mod_cast h
    rw [Int.abs_eq_natAbs] at h2
    exact_mod_cast h2

theorem lexLe_total : ∀ as bs : List Char, lexLe as bs = true ∨ lexLe bs as = true := by
  intro as
  induction as with
  | nil => intro bs; left; rfl
  | cons a as ih =>
    intro bs
    match bs with
    | [] => right; rfl
    | b :: bs =>
      rcases lt_trichotomy a b with hab | heq | hba
      · left; simp [lexLe, hab]
      · subst heq
        rcases ih bs with h | h
        · left; simpa [lexLe, lt_irrefl] using h
        · right; simpa [lexLe, lt_irrefl] using h
      · right; simp [lexLe, hba]

theorem lexLe_trans : ∀ as bs cs : List Char,
    lexLe as bs = true → lexLe bs cs = true → lexLe as cs = true := by
  intro as
  induction as with
  | nil => intro bs cs _ _; rfl
  | cons a as ih =>
    intro bs cs h1 h2
    match bs, cs with
    | [], _ => simp [lexLe] at h1
    | _ :: _, [] => simp [lexLe] at h2
    | b :: bs, c :: cs =>
      rcases lt_trichotomy a b with hab | heq | hba
      · rcases lt_trichotomy b c with hbc | heq2 | hcb
        · simp [lexLe, hab.trans hbc]
        · subst heq2; simp [lexLe, hab]
        · simp [lexLe, hcb, asymm hcb] at h2
      · subst heq
        rcases lt_trichotomy a c with hac | heq2 | hca
        · simp [lexLe, hac]
        · subst heq2
          simp only [lexLe, lt_irrefl, if_false] at h1 h2 ⊢
          exact ih _ _ h1 h2
        · simp [lexLe, hca, asymm hca] at h2
      · simp [lexLe, hba, asymm hba] at h1

theorem lexLe_antisymm : ∀ as bs : List Char,
    lexLe as bs = true → lexLe bs as = true → as = bs := by
  intro as
  induction as with
  | nil =>
    intro bs _ h2
    match bs with
    | [] => rfl
    | b :: bs => simp [lexLe] at h2
  | cons a as ih =>
    intro bs h1 h2
    match bs with
    | [] => simp [lexLe] at h1
    | b :: bs =>
      rcases lt_trichotomy a b with hab | heq | hba
      · simp [lexLe, hab, asymm hab] at h2
      · subst heq
        simp only [lexLe, lt_irrefl, if_false] at h1 h2
        rw [ih _ h1 h2]
      · simp [lexLe, hba, asymm hba] at h1

instance : IsTotal String (fun a b => keyLe a b = true) :=
  ⟨fun a b => lexLe_total a.data b.data⟩

instance : IsTrans String (fun a b => keyLe a b = true) :=
  ⟨fun a b c => lexLe_trans a.data b.data c.data⟩

instance : IsAntisymm String (fun a b => keyLe a b = true) :=
  ⟨fun a b h1 h2 => by
    cases a; cases b
    exact congrArg String.mk (lexLe_antisymm _ _ h1 h2)⟩

theorem lookupEntry_insertEntry_self (m : List (String × Entry)) (k : String) (v : Entry) :
    lookupEntry (insertEntry m k v) k = some v := by
  induction m with
  | nil => simp [insertEntry, lookupEntry]
  | cons p t ih =>
    rcases p with ⟨k₀, v₀⟩
    by_cases hp : k₀ = k
    · simp [insertEntry, hp, lookupEntry]
    · simp only [insertEntry, if_neg hp, lookupEntry, if_neg hp]
      exact ih

theorem lookupEntry_insertEntry_ne (m : List (String × Entry)) (k k' : String) (v : Entry)
    (h : k' ≠ k) : lookupEntry (insertEntry m k v) k' = lookupEntry m k' := by
  have h' : k ≠ k' := Ne.symm h
  induction m with
  | nil => simp [insertEntry, lookupEntry, h']
  | cons p t ih =>
    rcases p with ⟨k₀, v₀⟩
    by_cases hp : k₀ = k
    · subst hp
      simp [insertEntry, lookupEntry, h']
    · simp only [insertEntry, if_neg hp, lookupEntry]
      by_cases hq : k₀ = k'
      · rw [if_pos hq, if_pos hq]
      · rw [if_neg hq, if_neg hq]
        exact ih

theorem mem_mapKeys_insertEntry (m : List (String × Entry)) (k x : String) (v : Entry) :
    x ∈ mapKeys (insertEntry m k v) ↔ x ∈ mapKeys m ∨ x = k := by
  induction m with
  | nil => simp [insertEntry, mapKeys]
  | cons p t ih =>
    rcases p with ⟨k₀, v₀⟩
    by_cases hp : k₀ = k
    · subst hp
      have e : insertEntry ((k₀, v₀) :: t) k₀ v = (k₀, v) :: t := by
        simp [insertEntry]
      rw [e]
      simp only [mapKeys, List.map_cons, List.mem_cons]
      tauto
    · simp only [insertEntry, if_neg hp, mapKeys, List.map_cons, List.mem_cons]
      simp only [mapKeys] at ih
      rw [ih]
      tauto

theorem lookupEntry_isSome_iff_mem (m : List (String × Entry)) (k : String) :
    (lookupEntry m k).isSome = true ↔ k ∈ mapKeys m := by
  induction m with
  | nil => simp [lookupEntry, mapKeys]
  | cons p t ih =>
    rcases p with ⟨k₀, v₀⟩
    simp only [lookupEntry, mapKeys, List.map_cons, List.mem_cons]
    by_cases hp : k₀ = k
    · simp [hp]
    · rw [if_neg hp]
      simp only [mapKeys] at ih
      rw [ih]
      constructor
      · exact Or.inr
      · rintro (rfl | hx)
        · exact absurd rfl hp
        · exact hx

theorem buildMapFrom_append (m : List (String × Entry)) (l₁ l₂ : List Item) :
    buildMapFrom m (l₁ ++ l₂) = buildMapFrom (buildMapFrom m l₁) l₂ := by
  induction l₁ generalizing m with
  | nil => rfl
  | cons it rest ih =>
    simp only [List.cons_append, buildMapFrom]
    exact ih _

theorem mem_mapKeys_buildMapFrom (items : List Item) :
    ∀ (m : List (String × Entry)) (k : String),
      k ∈ mapKeys (buildMapFrom m items) ↔
        k ∈ mapKeys m ∨ (k ≠ "" ∧ ∃ it ∈ items, itemKey it = k) := by
  induction items with
  | nil =>
    intro m k
    simp [buildMapFrom]
  | cons it rest ih =>
    intro m k
    simp only [buildMapFrom]
    by_cases h : itemKey it = ""
    · rw [if_pos h, ih]
      constructor
      · rintro (hm | ⟨hk, it', hit', hkey⟩)
        · exact Or.inl hm
        · exact Or.inr ⟨hk, it', List.mem_cons_of_mem _ hit', hkey⟩
      · rintro (hm | ⟨hk, it', hit', hkey⟩)
        · exact Or.inl hm
        · rcases List.mem_cons.1 hit' with rfl | hit''
          · exact absurd (hkey.symm.trans h) hk
          · exact Or.inr ⟨hk, it', hit'', hkey⟩
    · rw [if_neg h, ih, mem_mapKeys_insertEntry]
      constructor
      · rintro ((hm | rfl) | ⟨hk, it', hit', hkey⟩)
        · exact Or.inl hm
        · exact Or.inr ⟨h, it, List.mem_cons_self _ _, rfl⟩
        · exact Or.inr ⟨hk, it', List.mem_cons_of_mem _ hit', hkey⟩
      · rintro (hm | ⟨hk, it', hit', hkey⟩)
        · exact Or.inl (Or.inl hm)
        · rcases List.mem_cons.1 hit' with rfl | hit''
          · exact Or.inl (Or.inr hkey.symm)
          · exact Or.inr ⟨hk, it', hit'', hkey⟩

theorem mem_sortedKeys (ka kb : List String) (k : String) :
    k ∈ sortedKeys ka kb ↔ k ∈ ka ∨ k ∈ kb := by
  rw [sortedKeys, List.mem_insertionSort, List.mem_dedup, List.mem_append]

theorem nodup_sortedKeys (ka kb : List String) : (sortedKeys ka kb).Nodup :=
  ((List.perm_insertionSort _ _).nodup_iff).2 (List.nodup_dedup _)

theorem sorted_sortedKeys (ka kb : List String) :
    List.Sorted (fun a b => keyLe a b = true) (sortedKeys ka kb) :=
  List.sorted_insertionSort _ _

theorem sortedKeys_eq_of_perm (ka kb l : List String) (h : l.Perm (ka ++ kb)) :
    List.insertionSort (fun a b => keyLe a b = true) l.dedup = sortedKeys ka kb := by
  rw [sortedKeys]
  have p1 : (List.insertionSort (fun a b => keyLe a b = true) l.dedup).Perm
      ((ka ++ kb).dedup) :=
    (List.perm_insertionSort _ _).trans h.dedup
  exact List.eq_of_perm_of_sorted
    (p1.trans (List.perm_insertionSort _ _).symm)
    (List.sorted_insertionSort _ _) (List.sorted_insertionSort _ _)

theorem length_filterMap_eq_length_filter {α β : Type} (f : α → Option β) (l : List α) :
    (l.filterMap f).length = (l.filter fun x => (f x).isSome).length := by
  induction l with
  | nil => rfl
  | cons a t ih =>
    cases h : f a with
    | none => simp [List.filterMap_cons, h, List.filter_cons, ih]
    | some b => simp [List.filterMap_cons, h, List.filter_cons, ih]

theorem filterMap_eq_filterMap_filter {α β : Type} [DecidableEq α] (f : α → Option β)
    (l : List α) (x₀ : α) (h : f x₀ = Option.none) :
    l.filterMap f = (l.filter fun x => x ≠ x₀).filterMap f := by
  induction l with
  | nil => rfl
  | cons a t ih =>
    by_cases ha : a = x₀
    · subst ha
      simp only [List.filterMap_cons, h, List.filter_cons, decide_eq_true_eq]
      rw [if_neg (by simp)]
      exact ih
    · simp only [List.filterMap_cons, List.filter_cons, decide_eq_true_eq]
      rw [if_pos ha]
      cases hf : f a with
      | none => simpa [List.filterMap_cons, hf] using ih
      | some b => simpa [List.filterMap_cons, hf] using ih

theorem stripChars_eq_nil_iff (cs : List Char) :
    stripChars cs = [] ↔ ∀ c ∈ cs, isPySpace c = true := by
  rw [stripChars]
  constructor
  · intro h c hc
    have h1 : (cs.dropWhile isPySpace).reverse.dropWhile isPySpace = [] :=
      List.reverse_eq_nil_iff.1 h
    have h2 : ∀ c ∈ (cs.dropWhile isPySpace).reverse, isPySpace c = true :=
      List.dropWhile_eq_nil_iff.1 h1
    rw [← List.takeWhile_append_dropWhile isPySpace cs] at hc
    rcases List.mem_append.1 hc with h3 | h3
    · exact List.mem_takeWhile_imp h3
    · exact h2 c (List.mem_reverse.2 h3)
  · intro h
    rw [List.dropWhile_eq_nil_iff.2 h]
    rfl

theorem pyStrip_eq_empty_iff (s : String) :
    pyStrip s = "" ↔ ∀ c ∈ s.data, isPySpace c = true := by
  rw [pyStrip]
  constructor
  · intro h
    exact (stripChars_eq_nil_iff _).1 (congrArg String.data h)
  · intro h
    exact congrArg String.mk ((stripChars_eq_nil_iff _).2 h)

theorem parseFloatChars_of_strip_nil (cs : List Char) (h : stripChars cs = []) :
    parseFloatChars cs = Option.none := by
  simp [parseFloatChars, h]

theorem parse_quantity_of_strip_empty (v : PyVal) (h : pyStrip (to_str v) = "") :
    parse_quantity v = Option.none := by
  have hall : ∀ c ∈ (to_str v).data, isPySpace c = true := (pyStrip_eq_empty_iff _).1 h
  rw [parse_quantity]
  split_ifs with hif
  · rfl
  · apply parseFloatChars_of_strip_nil
    apply (stripChars_eq_nil_iff _).2
    intro c hc
    obtain ⟨c₀, hc₀, rfl⟩ := List.mem_map.1 hc
    obtain ⟨hc₀m, _⟩ := List.mem_filter.1 hc₀
    have hsp := hall c₀ hc₀m
    have hcomma : (c₀ == ',') = false := by
      by_contra hx
      rw [Bool.not_eq_false] at hx
      have : c₀ = ',' := eq_of_beq hx
      subst this
      exact absurd hsp (by decide)
    rw [hcomma]
    simpa using hsp

theorem qtyDisp_of_strip_empty (v : PyVal) (h : pyStrip (to_str v) = "") : qtyDisp v = "" := by
  rw [qtyDisp, pyOrEmpty]
  by_cases ht : isTruthy v = true
  · rw [if_pos ht]
    exact h
  · rw [if_neg ht]
    rfl

theorem mem_matches_of_lookups (app inv : Doc) (k : String) (a b : Entry)
    (ha : lookupEntry (docMap app) k = some a)
    (hb : lookupEntry (docMap inv) k = some b) :
    mkMatchRow a b ∈ (compare_items app inv).matches_ := by
  have e : (compare_items app inv).matches_
      = (compareKeys app inv).filterMap fun k =>
          match lookupEntry (docMap app) k, lookupEntry (docMap inv) k with
          | some a, some b => some (mkMatchRow a b)
          | _, _ => Option.none := rfl
  rw [e]
  apply List.mem_filterMap.2
  refine ⟨k, ?_, ?_⟩
  · rw [compareKeys, mem_sortedKeys]
    exact Or.inl ((lookupEntry_isSome_iff_mem _ _).1 (by rw [ha]; rfl))
  · rw [ha, hb]

/-- C1, counterexample: with quantity `0` (number zero) in the application and
quantity `None` in the invoice for the same article, `compare_items` reports
`same_qty = true` (the `or ''` in the fallback collapses both falsy values to
the empty string), although neither condition of the claim holds: the invoice
quantity does not parse, and the whitespace-trimmed raw strings are `"0"` and
`""`. -/
theorem claim_C1_counterexample :
    (compare_items ⟨some [⟨some (.str "a"), some (.int 0), Option.none⟩]⟩
        ⟨some [⟨some (.str "a"), some .none, Option.none⟩]⟩).matches_.map
          MatchRow.same_qty = [true]
    ∧ parse_quantity (PyVal.int 0) = some 0
    ∧ parse_quantity PyVal.none = Option.none
    ∧ pyStrip (to_str (PyVal.int 0)) ≠ pyStrip (to_str PyVal.none) := by decide

/-- C1, amended: for every article key present in both documents, the match
entry is in `matches` and its `same_qty` flag is true iff EITHER both
quantities parse under the normalization and their absolute difference is
below `1e-9`, OR the quantity values, after first replacing falsy values
(`None`, empty string, numeric zero) by the empty string, stringified and
whitespace-trimmed, are identical. -/
theorem claim_C1 (app inv : Doc) (k : String) (a b : Entry)
    (ha : lookupEntry (docMap app) k = some a)
    (hb : lookupEntry (docMap inv) k = some b) :
    mkMatchRow a b ∈ (compare_items app inv).matches_
    ∧ ((mkMatchRow a b).same_qty = true ↔
        ((∃ x y, parse_quantity a.qty = some x ∧ parse_quantity b.qty = some y ∧
            |x - y| < qtyEps)
         ∨ pyStrip (to_str (pyOrEmpty a.qty)) = pyStrip (to_str (pyOrEmpty b.qty)))) := by
  refine ⟨mem_matches_of_lookups app inv k a b ha hb, ?_⟩
  have e2 : (mkMatchRow a b).same_qty = sameQty a.qty b.qty := rfl
  rw [e2, sameQty, Bool.or_eq_true, beq_iff_eq]
  cases hpa : parse_quantity a.qty <;> cases hpb : parse_quantity b.qty <;>
    simp [qtyDisp, absDiffLtEps_iff]

/-- C1, witness: articles `A-1`/`a-1` with quantities `"5"` and `"5,0"`
produce a match row. -/
theorem claim_C1_witness :
    mkMatchRow ⟨"A", .str "5", PyVal.none⟩ ⟨"a", .str "5,0", PyVal.none⟩
      ∈ (compare_items ⟨some [⟨some (.str "A"), some (.str "5"), Option.none⟩]⟩
          ⟨some [⟨some (.str "a"), some (.str "5,0"), Option.none⟩]⟩).matches_ :=
  (claim_C1 ⟨some [⟨some (.str "A"), some (.str "5"), Option.none⟩]⟩
    ⟨some [⟨some (.str "a"), some (.str "5,0"), Option.none⟩]⟩ "a"
    ⟨"A", .str "5", PyVal.none⟩ ⟨"a", .str "5,0", PyVal.none⟩
    (by decide) (by decide)).1

/-- C9: for an article key present in both documents whose quantity strings
both whitespace-trim to empty (covering missing and `None` quantities),
`parse_quantity` yields `none` on both sides, the string fallback compares two
empty strings, and the match entry reports `same_qty = true`. -/
theorem claim_C9 (app inv : Doc) (k : String) (a b : Entry)
    (ha : lookupEntry (docMap app) k = some a)
    (hb : lookupEntry (docMap inv) k = some b)
    (hqa : pyStrip (to_str a.qty) = "") (hqb : pyStrip (to_str b.qty) = "") :
    parse_quantity a.qty = Option.none
    ∧ parse_quantity b.qty = Option.none
    ∧ (mkMatchRow a b).same_qty = true
    ∧ mkMatchRow a b ∈ (compare_items app inv).matches_ := by
  refine ⟨parse_quantity_of_strip_empty _ hqa, parse_quantity_of_strip_empty _ hqb, ?_,
    mem_matches_of_lookups app inv k a b ha hb⟩
  have e : (mkMatchRow a b).same_qty = sameQty a.qty b.qty := rfl
  rw [e, sameQty, Bool.or_eq_true]
  right
  rw [beq_iff_eq, qtyDisp_of_strip_empty _ hqa, qtyDisp_of_strip_empty _ hqb]

/-- C9, witness: the same article with absent quantities on both sides yields
`same_qty = true`. -/
theorem claim_C9_witness :
    (mkMatchRow ⟨"Q", PyVal.none, PyVal.none⟩ ⟨"Q", PyVal.none, PyVal.none⟩).same_qty = true :=
  (claim_C9 ⟨some [⟨some (.str "Q"), Option.none, Option.none⟩]⟩
    ⟨some [⟨some (.str "Q"), Option.none, Option.none⟩]⟩ "q"
    ⟨"Q", PyVal.none, PyVal.none⟩ ⟨"Q", PyVal.none, PyVal.none⟩
    (by decide) (by decide) (by decide) (by decide)).2.2.1

theorem lookupEntry_buildMapFrom_skip (post : List Item) :
    ∀ (m : List (String × Entry)) (k : String),
      (∀ it' ∈ post, itemKey it' ≠ k) →
      lookupEntry (buildMapFrom m post) k = lookupEntry m k := by
  induction post with
  | nil => intro m k _; rfl
  | cons it rest ih =>
    intro m k hno
    simp only [buildMapFrom]
    rw [ih _ _ fun it' h => hno it' (List.mem_cons_of_mem _ h)]
    by_cases h : itemKey it = ""
    · rw [if_pos h]
    · rw [if_neg h,
        lookupEntry_insertEntry_ne _ _ _ _ (Ne.symm (hno it (List.mem_cons_self _ _)))]

/-- C4: when several items of one document share a normalized article key, the
map entry used by `compare_items` for that key — and hence the reported raw
article/quantity/unit — is the one built from the last such item, with no
error: `buildMap` of any item list of the form `prefix ++ [the item] ++ rest
without that key` maps the key to exactly `mkEntry` of that item. -/
theorem claim_C4 (pre post : List Item) (it : Item)
    (hkey : itemKey it ≠ "")
    (hpost : ∀ it' ∈ post, itemKey it' ≠ itemKey it) :
    lookupEntry (buildMap (pre ++ it :: post)) (itemKey it) = some (mkEntry it) := by
  rw [buildMap, buildMapFrom_append]
  simp only [buildMapFrom]
  rw [if_neg hkey, lookupEntry_buildMapFrom_skip post _ _ hpost,
    lookupEntry_insertEntry_self]

/-- C4, witness: two items with keys normalizing to `"a"`; the reported entry
is the second one's. -/
theorem claim_C4_witness :
    lookupEntry
      (buildMap ([⟨some (.str "A"), some (.str "1"), Option.none⟩] ++
        ⟨some (.str "a "), some (.str "2"), Option.none⟩ ::
          [⟨some (.str "b"), Option.none, Option.none⟩]))
      (itemKey ⟨some (.str "a "), some (.str "2"), Option.none⟩)
      = some (mkEntry ⟨some (.str "a "), some (.str "2"), Option.none⟩) :=
  claim_C4 [⟨some (.str "A"), some (.str "1"), Option.none⟩]
    [⟨some (.str "b"), Option.none, Option.none⟩]
    ⟨some (.str "a "), some (.str "2"), Option.none⟩
    (by decide) (by decide)

theorem itemKey_normItem (it : Item) : itemKey (normItem it) = itemKey it := by
  cases h : it.article with
  | none =>
    simp only [itemKey, Item.getArticle, normItem, Item.getArticleRaw, h, Option.getD]
    decide
  | some v =>
    simp only [itemKey, Item.getArticle, normItem, Item.getArticleRaw, h, Option.getD]

theorem buildMapFrom_map_normItem (items : List Item) :
    ∀ m : List (String × Entry), buildMapFrom m (items.map normItem) = buildMapFrom m items := by
  induction items with
  | nil => intro m; rfl
  | cons it rest ih =>
    intro m
    simp only [List.map_cons, buildMapFrom, itemKey_normItem]
    have he : mkEntry (normItem it) = mkEntry it := rfl
    rw [he]
    exact ih _

theorem compare_items_congr (a₁ a₂ i₁ i₂ : Doc)
    (h₁ : docMap a₁ = docMap a₂) (h₂ : docMap i₁ = docMap i₂) :
    compare_items a₁ i₁ = compare_items a₂ i₂ := by
  simp only [compare_items, compareKeys, h₁, h₂]

/-- C5: `compare_items` is total on arbitrary documents, and malformed pieces
degrade to sentinels rather than failing: a missing/null `items` collection
behaves as the empty list, items with missing fields behave exactly as items
with explicit nulls, and the null sentinels stringify to `""` and parse to
`none`. -/
theorem claim_C5 (app inv : Doc) :
    compare_items app inv
      = compare_items ⟨some (app.items.getD [])⟩ ⟨some (inv.items.getD [])⟩
    ∧ compare_items app inv
      = compare_items ⟨some ((app.items.getD []).map normItem)⟩
          ⟨some ((inv.items.getD []).map normItem)⟩
    ∧ to_str PyVal.none = ""
    ∧ parse_quantity PyVal.none = Option.none
    ∧ normalize_article PyVal.none = ""
    ∧ normalize_unit PyVal.none = "" := by
  refine ⟨rfl, ?_, rfl, by decide, by decide, rfl⟩
  refine compare_items_congr _ _ _ _ ?_ ?_
  · show docMap app = docMap ⟨some ((app.items.getD []).map normItem)⟩
    rw [docMap, docMap]
    exact (buildMapFrom_map_normItem _ _).symm
  · show docMap inv = docMap ⟨some ((inv.items.getD []).map normItem)⟩
    rw [docMap, docMap]
    exact (buildMapFrom_map_normItem _ _).symm

theorem filterMap_eq_filterMap_filter_isSome {α β : Type} (f : α → Option β) (p : α → Bool)
    (l : List α) (hp : ∀ x ∈ l, (f x).isSome = p x) :
    l.filterMap f = (l.filter p).filterMap f := by
  induction l with
  | nil => rfl
  | cons a t ih =>
    have ha := hp a (List.mem_cons_self _ _)
    have iht := ih fun x hx => hp x (List.mem_cons_of_mem _ hx)
    cases hf : f a with
    | none =>
      have hpa : p a = false := by rw [← ha, hf]; rfl
      simp [List.filterMap_cons, hf, List.filter_cons, hpa, iht]
    | some b =>
      have hpa : p a = true := by rw [← ha, hf]; rfl
      simp [List.filterMap_cons, hf, List.filter_cons, hpa, iht]

theorem mem_docKeys_iff (d : Doc) (k : String) :
    k ∈ mapKeys (docMap d) ↔ k ≠ "" ∧ ∃ it ∈ d.items.getD [], itemKey it = k := by
  rw [docMap, buildMap, mem_mapKeys_buildMapFrom]
  simp [mapKeys]

/-- C2: the three result lists of `compare_items` partition the union of the
non-empty normalized article keys of both documents: the walked key list is
exactly the set of non-empty normalized keys of either document, without
duplicates; every walked key is classified into exactly one of the three
classes; and each result list has exactly one row per key of its class. -/
theorem claim_C2 (app inv : Doc) :
    (∀ k : String, k ∈ compareKeys app inv ↔
        (k ≠ "" ∧ ((∃ it ∈ app.items.getD [], itemKey it = k)
          ∨ (∃ it ∈ inv.items.getD [], itemKey it = k))))
    ∧ (compareKeys app inv).Nodup
    ∧ (∀ k ∈ compareKeys app inv,
        (k ∈ matchKeys app inv ∧ k ∉ onlyAppKeys app inv ∧ k ∉ onlyInvKeys app inv)
        ∨ (k ∉ matchKeys app inv ∧ k ∈ onlyAppKeys app inv ∧ k ∉ onlyInvKeys app inv)
        ∨ (k ∉ matchKeys app inv ∧ k ∉ onlyAppKeys app inv ∧ k ∈ onlyInvKeys app inv))
    ∧ (compare_items app inv).matches_.length = (matchKeys app inv).length
    ∧ (compare_items app inv).only_in_app.length = (onlyAppKeys app inv).length
    ∧ (compare_items app inv).only_in_inv.length = (onlyInvKeys app inv).length := by
  refine ⟨?_, nodup_sortedKeys _ _, ?_, ?_, ?_, ?_⟩
  · intro k
    rw [compareKeys, mem_sortedKeys, mem_docKeys_iff, mem_docKeys_iff]
    constructor
    · rintro (⟨hne, hA⟩ | ⟨hne, hB⟩)
      · exact ⟨hne, Or.inl hA⟩
      · exact ⟨hne, Or.inr hB⟩
    · rintro ⟨hne, hA | hB⟩
      · exact Or.inl ⟨hne, hA⟩
      · exact Or.inr ⟨hne, hB⟩
  · intro k hk
    have hor : (lookupEntry (docMap app) k).isSome = true
        ∨ (lookupEntry (docMap inv) k).isSome = true := by
      rw [compareKeys, mem_sortedKeys] at hk
      rcases hk with h | h
      · exact Or.inl ((lookupEntry_isSome_iff_mem _ _).2 h)
      · exact Or.inr ((lookupEntry_isSome_iff_mem _ _).2 h)
    cases hA : lookupEntry (docMap app) k <;> cases hB : lookupEntry (docMap inv) k
    · rw [hA, hB] at hor
      simp at hor
    · right; right
      simp [matchKeys, onlyAppKeys, onlyInvKeys, List.mem_filter, hA, hB, hk]
    · right; left
      simp [matchKeys, onlyAppKeys, onlyInvKeys, List.mem_filter, hA, hB, hk]
    · left
      simp [matchKeys, onlyAppKeys, onlyInvKeys, List.mem_filter, hA, hB, hk]
  · rw [show (compare_items app inv).matches_
        = (compareKeys app inv).filterMap fun k =>
            match lookupEntry (docMap app) k, lookupEntry (docMap inv) k with
            | some a, some b => some (mkMatchRow a b)
            | _, _ => Option.none from rfl]
    rw [length_filterMap_eq_length_filter, matchKeys]
    apply congrArg
    apply List.filter_congr
    intro k _
    cases lookupEntry (docMap app) k <;> cases lookupEntry (docMap inv) k <;> rfl
  · rw [show (compare_items app inv).only_in_app
        = (compareKeys app inv).filterMap fun k =>
            match lookupEntry (docMap app) k, lookupEntry (docMap inv) k with
            | some a, Option.none => some (mkAppRow a)
            | _, _ => Option.none from rfl]
    rw [length_filterMap_eq_length_filter, onlyAppKeys]
    apply congrArg
    apply List.filter_congr
    intro k _
    cases lookupEntry (docMap app) k <;> cases lookupEntry (docMap inv) k <;> rfl
  · rw [show (compare_items app inv).only_in_inv
        = (compareKeys app inv).filterMap fun k =>
            match lookupEntry (docMap app) k, lookupEntry (docMap inv) k with
            | Option.none, some b => some (mkInvRow b)
            | _, _ => Option.none from rfl]
    rw [length_filterMap_eq_length_filter, onlyInvKeys]
    apply congrArg
    apply List.filter_congr
    intro k _
    cases lookupEntry (docMap app) k <;> cases lookupEntry (docMap inv) k <;> rfl

/-- C2, witness: the spec's only-in-X scenario (`{X, Y}` vs `{Y, Z}`)
instantiated: key `"y"` is in the key universe, and it is classified as a
match and not as only-in-app or only-in-inv. -/
theorem claim_C2_witness :
    ("y" ∈ compareKeys
        ⟨some [⟨some (.str "X"), Option.none, Option.none⟩,
               ⟨some (.str "Y"), Option.none, Option.none⟩]⟩
        ⟨some [⟨some (.str "Y"), Option.none, Option.none⟩,
               ⟨some (.str "Z"), Option.none, Option.none⟩]⟩)
    ∧ ("y" ∈ matchKeys
        ⟨some [⟨some (.str "X"), Option.none, Option.none⟩,
               ⟨some (.str "Y"), Option.none, Option.none⟩]⟩
        ⟨some [⟨some (.str "Y"), Option.none, Option.none⟩,
               ⟨some (.str "Z"), Option.none, Option.none⟩]⟩
       ∧ "y" ∉ onlyAppKeys
        ⟨some [⟨some (.str "X"), Option.none, Option.none⟩,
               ⟨some (.str "Y"), Option.none, Option.none⟩]⟩
        ⟨some [⟨some (.str "Y"), Option.none, Option.none⟩,
               ⟨some (.str "Z"), Option.none, Option.none⟩]⟩
       ∧ "y" ∉ onlyInvKeys
        ⟨some [⟨some (.str "X"), Option.none, Option.none⟩,
               ⟨some (.str "Y"), Option.none, Option.none⟩]⟩
        ⟨some [⟨some (.str "Y"), Option.none, Option.none⟩,
               ⟨some (.str "Z"), Option.none, Option.none⟩]⟩)
    ∨ ¬("y" ∈ compareKeys
        ⟨some [⟨some (.str "X"), Option.none, Option.none⟩,
               ⟨some (.str "Y"), Option.none, Option.none⟩]⟩
        ⟨some [⟨some (.str "Y"), Option.none, Option.none⟩,
               ⟨some (.str "Z"), Option.none, Option.none⟩]⟩) := by
  rcases (claim_C2
      ⟨some [⟨some (.str "X"), Option.none, Option.none⟩,
             ⟨some (.str "Y"), Option.none, Option.none⟩]⟩
      ⟨some [⟨some (.str "Y"), Option.none, Option.none⟩,
             ⟨some (.str "Z"), Option.none, Option.none⟩]⟩).2.2.1 "y" (by decide) with
    h | h | h
  · exact Or.inl ⟨by decide, h⟩
  · exact absurd h.1 (by decide)
  · exact absurd h.1 (by decide)

/-- C3: the key walk of `compare_items` is strictly controlled: the key
universe is sorted (code-point lexicographic) and duplicate-free, each result
list is produced by walking its (sorted) class of keys in that order, and the
sorted key universe is independent of the enumeration order of the union of
the two key sets (Python's set iteration order): any permutation of the
concatenated key lists yields the same sorted universe, so equal inputs give
equal results. -/
theorem claim_C3 (app inv : Doc) (l : List String)
    (hperm : l.Perm (mapKeys (docMap app) ++ mapKeys (docMap inv))) :
    List.Sorted (fun a b => keyLe a b = true) (compareKeys app inv)
    ∧ (compareKeys app inv).Nodup
    ∧ List.Sorted (fun a b => keyLe a b = true) (matchKeys app inv)
    ∧ List.Sorted (fun a b => keyLe a b = true) (onlyAppKeys app inv)
    ∧ List.Sorted (fun a b => keyLe a b = true) (onlyInvKeys app inv)
    ∧ (compare_items app inv).matches_
        = (matchKeys app inv).filterMap (fun k =>
            match lookupEntry (docMap app) k, lookupEntry (docMap inv) k with
            | some a, some b => some (mkMatchRow a b)
            | _, _ => Option.none)
    ∧ (compare_items app inv).only_in_app
        = (onlyAppKeys app inv).filterMap (fun k =>
            match lookupEntry (docMap app) k, lookupEntry (docMap inv) k with
            | some a, Option.none => some (mkAppRow a)
            | _, _ => Option.none)
    ∧ (compare_items app inv).only_in_inv
        = (onlyInvKeys app inv).filterMap (fun k =>
            match lookupEntry (docMap app) k, lookupEntry (docMap inv) k with
            | Option.none, some b => some (mkInvRow b)
            | _, _ => Option.none)
    ∧ List.insertionSort (fun a b => keyLe a b = true) l.dedup = compareKeys app inv := by
  refine ⟨sorted_sortedKeys _ _, nodup_sortedKeys _ _, ?_, ?_, ?_, ?_, ?_, ?_,
    sortedKeys_eq_of_perm _ _ _ hperm⟩
  · rw [matchKeys]
    exact (sorted_sortedKeys _ _).filter _
  · rw [onlyAppKeys]
    exact (sorted_sortedKeys _ _).filter _
  · rw [onlyInvKeys]
    exact (sorted_sortedKeys _ _).filter _
  · rw [show (compare_items app inv).matches_
        = (compareKeys app inv).filterMap fun k =>
            match lookupEntry (docMap app) k, lookupEntry (docMap inv) k with
            | some a, some b => some (mkMatchRow a b)
            | _, _ => Option.none from rfl, matchKeys]
    apply filterMap_eq_filterMap_filter_isSome
    intro k _
    cases lookupEntry (docMap app) k <;> cases lookupEntry (docMap inv) k <;> rfl
  · rw [show (compare_items app inv).only_in_app
        = (compareKeys app inv).filterMap fun k =>
            match lookupEntry (docMap app) k, lookupEntry (docMap inv) k with
            | some a, Option.none => some (mkAppRow a)
            | _, _ => Option.none from rfl, onlyAppKeys]
    apply filterMap_eq_filterMap_filter_isSome
    intro k _
    cases lookupEntry (docMap app) k <;> cases lookupEntry (docMap inv) k <;> rfl
  · rw [show (compare_items app inv).only_in_inv
        = (compareKeys app inv).filterMap fun k =>
            match lookupEntry (docMap app) k, lookupEntry (docMap inv) k with
            | Option.none, some b => some (mkInvRow b)
            | _, _ => Option.none from rfl, onlyInvKeys]
    apply filterMap_eq_filterMap_filter_isSome
    intro k _
    cases lookupEntry (docMap app) k <;> cases lookupEntry (docMap inv) k <;> rfl

/-- C3, witness: on the `{X, Y}` vs `{Y, Z}` documents, the key universe is
sorted, and feeding the union keys in a scrambled order yields the same
sorted universe. -/
theorem claim_C3_witness :
    List.Sorted (fun a b => keyLe a b = true)
      (compareKeys
        ⟨some [⟨some (.str "X"), Option.none, Option.none⟩,
               ⟨some (.str "Y"), Option.none, Option.none⟩]⟩
        ⟨some [⟨some (.str "Y"), Option.none, Option.none⟩,
               ⟨some (.str "Z"), Option.none, Option.none⟩]⟩)
    ∧ List.insertionSort (fun a b => keyLe a b = true) (["z", "y", "x", "y"].dedup)
      = compareKeys
        ⟨some [⟨some (.str "X"), Option.none, Option.none⟩,
               ⟨some (.str "Y"), Option.none, Option.none⟩]⟩
        ⟨some [⟨some (.str "Y"), Option.none, Option.none⟩,
               ⟨some (.str "Z"), Option.none, Option.none⟩]⟩ :=
  ⟨(claim_C3 ⟨some [⟨some (.str "X"), Option.none, Option.none⟩,
               ⟨some (.str "Y"), Option.none, Option.none⟩]⟩
      ⟨some [⟨some (.str "Y"), Option.none, Option.none⟩,
               ⟨some (.str "Z"), Option.none, Option.none⟩]⟩
      ["z", "y", "x", "y"] (by decide)).1,
   (claim_C3 ⟨some [⟨some (.str "X"), Option.none, Option.none⟩,
               ⟨some (.str "Y"), Option.none, Option.none⟩]⟩
      ⟨some [⟨some (.str "Y"), Option.none, Option.none⟩,
               ⟨some (.str "Z"), Option.none, Option.none⟩]⟩
      ["z", "y", "x", "y"] (by decide)).2.2.2.2.2.2.2.2⟩

theorem filterMap_skip_none {β : Type} (f : Nat → Option β) (l : List Nat) (k : Nat)
    (h : f k = Option.none) :
    l.filterMap f = (l.filter fun j => j ≠ k).filterMap f := by
  induction l with
  | nil => rfl
  | cons a t ih =>
    by_cases ha : a = k
    · subst ha
      simp only [List.filterMap_cons, h, List.filter_cons, decide_eq_true_eq]
      rw [if_neg (by simp)]
      exact ih
    · simp only [List.filterMap_cons, List.filter_cons, decide_eq_true_eq]
      rw [if_pos ha]
      cases hf : f a with
      | none => simpa [List.filterMap_cons, hf] using ih
      | some b => simpa [List.filterMap_cons, hf] using ih

/-- C6: in a batch where exactly one image fails all its recognition attempts
and every other image succeeds, `process_images` returns (no exception) the
concatenation, in completion order, of the successful images' text fragments;
the failing image contributes nothing (dropping it from the completion order
leaves the result unchanged), and every other image contributes its
fragments. -/
theorem claim_C6 (p : OCRPool) (images : List (List (Option (List String))))
    (ord : List Nat) (k : Nat)
    (hp : p.executor = true)
    (hperm : ord.Perm (List.range images.length))
    (hk : k < images.length)
    (hfail : (images.get? k).bind workerProcess = Option.none)
    (hsucc : ∀ j ∈ List.range images.length, j ≠ k →
      ((images.get? j).bind workerProcess).isSome = true) :
    processImages p images ord
      = .ok (List.flatten ((ord.filter fun j => j ≠ k).filterMap
          fun j => (images.get? j).bind workerProcess))
    ∧ ∀ j ∈ ord, j ≠ k → ∃ ts, (images.get? j).bind workerProcess = some ts := by
  constructor
  · have hne : images ≠ [] := by
      intro h
      rw [h] at hk
      simp at hk
    rw [processImages, if_neg hne, hp]
    simp only [Bool.not_true, Bool.false_eq_true, if_false]
    rw [filterMap_skip_none _ _ _ hfail]
  · intro j hj hjk
    have hjr : j ∈ List.range images.length := hperm.mem_iff.1 hj
    have := hsucc j hjr hjk
    exact Option.isSome_iff_exists.1 this

/-- C6, witness: three images, the second failing both attempts, completion
order 1, 2, 0. -/
theorem claim_C6_witness :
    processImages ((OCRPool.init 2 true).start)
      [[some ["a"]], [Option.none, Option.none], [some ["c"]]] [1, 2, 0]
      = .ok (List.flatten ((([1, 2, 0] : List Nat).filter fun j => j ≠ 1).filterMap
          fun j => ([[some ["a"]], [Option.none, Option.none],
            [some ["c"]]].get? j).bind workerProcess)) :=
  (claim_C6 ((OCRPool.init 2 true).start)
    [[some ["a"]], [Option.none, Option.none], [some ["c"]]] [1, 2, 0] 1
    (by decide) (by decide) (by decide) (by decide) (by decide)).1

/-- C7: `process_images` with a non-empty image list on a pool that was never
started, or on any pool after `shutdown`, raises (returns the explicit
not-running error), and after `shutdown` the stats dictionary reports
`active: false`. -/
theorem claim_C7 (p : OCRPool) (w : Nat) (u : Bool)
    (images : List (List (Option (List String)))) (ord : List Nat)
    (h : images ≠ []) :
    processImages (OCRPool.init w u) images ord = .error .notRunning
    ∧ processImages ((OCRPool.init w u).start.shutdown) images ord = .error .notRunning
    ∧ processImages p.shutdown images ord = .error .notRunning
    ∧ statsActive (OCRPool.getStats p.shutdown) = false := by
  have eshut : ∀ q : OCRPool, (q.shutdown).executor = false := by
    intro q
    rw [OCRPool.shutdown]
    by_cases hq : q.executor = true
    · rw [if_pos hq]
    · rw [if_neg hq]
      exact Bool.eq_false_iff.2 hq
  refine ⟨?_, ?_, ?_, ?_⟩
  · rw [processImages, if_neg h]
    rfl
  · rw [processImages, if_neg h, eshut]
    rfl
  · rw [processImages, if_neg h, eshut]
    rfl
  · rw [OCRPool.getStats]
    by_cases hw : (p.shutdown).workers = []
    · rw [if_pos hw]
      rfl
    · rw [if_neg hw, statsActive, eshut]

/-- C7, witness: a started-then-shut-down pool rejects a one-image batch and
reports inactive. -/
theorem claim_C7_witness :
    processImages (((OCRPool.init 2 true).start).shutdown) [[some ["t"]]] [0]
      = .error .notRunning
    ∧ statsActive (OCRPool.getStats (((OCRPool.init 2 true).start).shutdown)) = false :=
  ⟨(claim_C7 ((OCRPool.init 2 true).start) 2 true [[some ["t"]]] [0] (by decide)).2.2.1,
   (claim_C7 ((OCRPool.init 2 true).start) 2 true [[some ["t"]]] [0] (by decide)).2.2.2⟩

/-- C10: `process_images` on the empty image list returns the empty list in
every lifecycle state — on a freshly constructed (never started) pool, on a
shut-down pool, and on any pool whatsoever — because the empty-input check
precedes the executor check. -/
theorem claim_C10 (p : OCRPool) (w : Nat) (u : Bool) (ord : List Nat) :
    processImages (OCRPool.init w u) [] ord = .ok []
    ∧ processImages p.shutdown [] ord = .ok []
    ∧ processImages p [] ord = .ok [] := by
  refine ⟨?_, ?_, ?_⟩ <;> rw [processImages, if_pos rfl]

/-- C8, counterexample: under the default configuration the denoising median
filter IS applied (the `OCR_DENOISE` default `"0"` tests as a member of the
false-token tuple, yielding `True`), and the three enhancement multipliers
all equal `1.0`, so no enhancement stage runs — the opposite of the claim on
both points. -/
theorem claim_C8_counterexample :
    Transform.medianFilter 3 ∈ defaultPreprocessTrace false
    ∧ OCR_DENOISE_default = true
    ∧ OCR_CONTRAST_default = some 1
    ∧ OCR_BRIGHTNESS_default = some 1
    ∧ OCR_SHARPNESS_default = some 1 := by decide

/-- C8, amended: under the default configuration, `preprocess_for_ocr`
applies only the conditional resize followed by the denoising median filter:
`OCR_DENOISE` parses its default `"0"` through membership in
`("0", "false", "False")` to `True` (filter enabled), while the contrast,
brightness and sharpness multipliers each parse to exactly `1.0`, so all
three enhancement stages are skipped. -/
theorem claim_C8 (needsResize : Bool) :
    defaultPreprocessTrace needsResize
      = (if needsResize then [Transform.resize] else []) ++ [Transform.medianFilter 3]
    ∧ OCR_DENOISE_default = true
    ∧ OCR_CONTRAST_default = some 1
    ∧ OCR_BRIGHTNESS_default = some 1
    ∧ OCR_SHARPNESS_default = some 1 := by
  cases needsResize <;> exact ⟨by decide, by decide, by decide, by decide, by decide⟩
